import Mathlib

/-!
Verification of the collaborative-browser session core.

This file is a shallow embedding of the repository's Session Store
(`src/server/src/room/RoomManager.ts`), the Signaling Relay handlers
(`SignalingHandler`), and the Browser Automation Engine (`BrowserService`),
together with theorems settling the frozen claims about them.

JavaScript `Map` objects are embedded as association lists that preserve
insertion order: `set` on an absent key appends at the end, `set` on a
present key updates in place, `delete` removes the entry, and `values()`
is the list of second components.  `Date` values are embedded as `Nat`
millisecond timestamps passed explicitly to each operation.
-/

namespace BrowserConcept

/-- JS `Map.get`: the value stored at `k`, if any. -/
def mapGet {α : Type} (m : List (String × α)) (k : String) : Option α :=
  match m with
  | [] => none
  | (k', v) :: rest => if k' = k then some v else mapGet rest k

/-- JS `Map.set`: update in place if `k` is present, else append at the end. -/
def mapSet {α : Type} (m : List (String × α)) (k : String) (v : α) :
    List (String × α) :=
  match m with
  | [] => [(k, v)]
  | (k', v') :: rest =>
    if k' = k then (k, v) :: rest else (k', v') :: mapSet rest k v

/-- JS `Map.delete`: remove the entry stored at `k`. -/
def mapDelete {α : Type} (m : List (String × α)) (k : String) :
    List (String × α) :=
  match m with
  | [] => []
  | (k', v) :: rest =>
    if k' = k then mapDelete rest k else (k', v) :: mapDelete rest k

/-- `User` record of `src/server/src/types` (`Date`s as `Nat` milliseconds). -/
structure User where
  id : String
  name : String
  isHost : Bool
  joinedAt : Nat
  lastActivity : Nat
deriving Repr, DecidableEq

/-- `Room` record of `src/server/src/types`.  `users` is the room's JS `Map`
in insertion order; `password` is `undefined`/present as `Option`. -/
structure Room where
  id : String
  name : String
  password : Option String
  users : List (String × User)
  currentUrl : String
  createdAt : Nat
  lastActivity : Nat
  maxUsers : Nat
deriving Repr, DecidableEq

/-- State of a `RoomManager` instance: the `rooms` and `userToRoom` maps,
plus the list of grace-period deletion timers currently scheduled by
`leaveRoom` (each `(roomId, fireAt)` is a pending `setTimeout` callback). -/
structure RoomManager where
  rooms : List (String × Room)
  userToRoom : List (String × String)
  pending : List (String × Nat)
deriving Repr, DecidableEq

/-- The freshly-constructed `RoomManager` (both maps empty, no timers). -/
def RoomManager.empty : RoomManager := { rooms := [], userToRoom := [], pending := [] }

/-- `RoomManager.createRoom`.  The generated uuid is passed as `rid`. -/
def createRoom (st : RoomManager) (rid name : String) (pw : Option String)
    (maxUsers now : Nat) : Room × RoomManager :=
  let room : Room :=
    { id := rid, name := name, password := pw, users := [],
      currentUrl := "https://www.google.com", createdAt := now,
      lastActivity := now, maxUsers := maxUsers }
  (room, { st with rooms := mapSet st.rooms rid room })

/-- Result of `RoomManager.joinRoom` (`{success, room?, error?}`). -/
inductive JoinResult where
  | ok (room : Room)
  | error (msg : String)
deriving Repr, DecidableEq

/-- The password check `room.password && room.password !== password`:
rejects only when the room's password is defined, non-empty (JS truthiness),
and different from the supplied one. -/
def passwordRejects (roomPw pw : Option String) : Bool :=
  match roomPw with
  | none => false
  | some p => p != "" && some p != pw

/-- `RoomManager.joinRoom`: existence, password, capacity, duplication checks
in order, then insertion of the new user (host iff the room was empty)
and update of the reverse index. -/
def joinRoom (st : RoomManager) (rid uid uname : String) (pw : Option String)
    (now : Nat) : JoinResult × RoomManager :=
  match mapGet st.rooms rid with
  | none => (.error "Room not found", st)
  | some room =>
    if passwordRejects room.password pw then (.error "Invalid password", st)
    else if room.users.length ≥ room.maxUsers then (.error "Room is full", st)
    else if (mapGet room.users uid).isSome then (.error "User already in room", st)
    else
      let user : User :=
        { id := uid, name := uname, isHost := room.users.isEmpty,
          joinedAt := now, lastActivity := now }
      let room' := { room with users := mapSet room.users uid user, lastActivity := now }
      (.ok room',
        { st with rooms := mapSet st.rooms rid room',
                  userToRoom := mapSet st.userToRoom uid rid })

/-- Grace period (`300000` ms = 5 minutes) before an empty room is deleted. -/
def gracePeriodMs : Nat := 300000

/-- Host repair step of `leaveRoom`: if the remaining users are non-empty
and none of them is host, set `isHost` on `users[0]` (the first entry in
the map's insertion order). -/
def promoteIfHostless (l : List (String × User)) : List (String × User) :=
  if l.isEmpty then l
  else if l.any (fun p => p.2.isHost) then l
  else
    match l with
    | [] => []
    | (k, u) :: rest => (k, { u with isHost := true }) :: rest

/-- `RoomManager.leaveRoom`: removes the user and the reverse-index entry;
if the room became empty, schedules a deletion timer for the grace period;
otherwise, if no remaining member is host, promotes the first remaining
member (`users[0]` of the map's insertion order).  Returns `false` without
mutating anything when the reverse index has no (truthy) entry for the user
or the indexed room no longer exists. -/
def leaveRoom (st : RoomManager) (uid : String) (now : Nat) :
    Bool × RoomManager :=
  match mapGet st.userToRoom uid with
  | none => (false, st)
  | some rid =>
    if rid = "" then (false, st)
    else
      match mapGet st.rooms rid with
      | none => (false, st)
      | some room =>
        let users' := mapDelete room.users uid
        let pending' :=
          if users'.isEmpty then (rid, now + gracePeriodMs) :: st.pending
          else st.pending
        (true,
          { st with rooms :=
              mapSet st.rooms rid { room with users := promoteIfHostless users' },
                    userToRoom := mapDelete st.userToRoom uid,
                    pending := pending' })

/-- The `setTimeout` callback scheduled by `leaveRoom`: once the grace
period has elapsed, delete the room only if it still exists and is still
empty; the fired timer leaves `pending`. -/
def fireDeleteTimer (st : RoomManager) (rid : String) (fireAt : Nat) :
    RoomManager :=
  let stP := { st with pending := st.pending.erase (rid, fireAt) }
  match mapGet st.rooms rid with
  | some room =>
    if room.users.isEmpty then { stP with rooms := mapDelete st.rooms rid }
    else stP
  | none => stP

/-- `RoomManager.getUserRoom`: the room the user's connection is in,
through the reverse index (`roomId ? rooms.get(roomId) : undefined`). -/
def getUserRoom (st : RoomManager) (uid : String) : Option Room :=
  match mapGet st.userToRoom uid with
  | none => none
  | some rid => if rid = "" then none else mapGet st.rooms rid

/-- `RoomManager.getRoomUsers`: `Array.from(room.users.values())`. -/
def getRoomUsers (st : RoomManager) (rid : String) : List User :=
  match mapGet st.rooms rid with
  | some room => room.users.map (fun p => p.2)
  | none => []

/-- `RoomManager.updateRoomUrl`: sets `currentUrl` and `lastActivity`,
no-op returning `false` when the room does not exist. -/
def updateRoomUrl (st : RoomManager) (rid url : String) (now : Nat) :
    Bool × RoomManager :=
  match mapGet st.rooms rid with
  | none => (false, st)
  | some room =>
    (true,
      { st with rooms :=
          mapSet st.rooms rid { room with currentUrl := url, lastActivity := now } })

/-- `RoomManager.updateUserActivity`: refreshes the user's and the room's
`lastActivity`; no-op when the index entry or room is missing. -/
def updateUserActivity (st : RoomManager) (uid : String) (now : Nat) :
    RoomManager :=
  match mapGet st.userToRoom uid with
  | none => st
  | some rid =>
    if rid = "" then st
    else
      match mapGet st.rooms rid with
      | none => st
      | some room =>
        let users' :=
          match mapGet room.users uid with
          | some u => mapSet room.users uid { u with lastActivity := now }
          | none => room.users
        { st with rooms :=
            mapSet st.rooms rid { room with users := users', lastActivity := now } }

/-- Inactivity timeout used by `cleanup` (`30 * 60 * 1000` ms). -/
def inactivityTimeoutMs : Nat := 1800000

/-- A user is inactive when `now - lastActivity` exceeds the timeout. -/
def userInactive (now : Nat) (u : User) : Bool :=
  decide (now - u.lastActivity > inactivityTimeoutMs)

/-- The per-room sweep of `RoomManager.cleanup` over the `rooms` map in
order: drop inactive users from each room, then drop the room itself if it
is empty and inactive.  Returns the surviving rooms and the removed user
ids (whose reverse-index entries `cleanup` deletes). -/
def cleanupRooms (now : Nat) : List (String × Room) →
    List (String × Room) × List String
  | [] => ([], [])
  | (rid, room) :: rest =>
    let kept := room.users.filter (fun p => !userInactive now p.2)
    let removedHere := (room.users.filter (fun p => userInactive now p.2)).map
      (fun p => p.1)
    let tail := cleanupRooms now rest
    if kept.isEmpty && decide (now - room.lastActivity > inactivityTimeoutMs)
    then (tail.1, removedHere ++ tail.2)
    else ((rid, { room with users := kept }) :: tail.1, removedHere ++ tail.2)

/-- `RoomManager.cleanup`. -/
def cleanup (st : RoomManager) (now : Nat) : RoomManager :=
  let swept := cleanupRooms now st.rooms
  { st with rooms := swept.1,
            userToRoom := st.userToRoom.filter (fun p => !(swept.2.contains p.1)) }

/-- States of the Session Store reachable from the fresh `RoomManager` by
its operations; a grace-period timer may fire only once scheduled and only
at or after its expiry time. -/
inductive Reachable : RoomManager → Prop where
  | init : Reachable RoomManager.empty
  | step_create {st} (h : Reachable st) (rid name : String) (pw : Option String)
      (mx now : Nat) : Reachable (createRoom st rid name pw mx now).2
  | step_join {st} (h : Reachable st) (rid uid uname : String)
      (pw : Option String) (now : Nat) : Reachable (joinRoom st rid uid uname pw now).2
  | step_leave {st} (h : Reachable st) (uid : String) (now : Nat) :
      Reachable (leaveRoom st uid now).2
  | step_url {st} (h : Reachable st) (rid url : String) (now : Nat) :
      Reachable (updateRoomUrl st rid url now).2
  | step_activity {st} (h : Reachable st) (uid : String) (now : Nat) :
      Reachable (updateUserActivity st uid now)
  | step_cleanup {st} (h : Reachable st) (now : Nat) : Reachable (cleanup st now)
  | step_fire {st} (h : Reachable st) (rid : String) (fireAt now : Nat)
      (hmem : (rid, fireAt) ∈ st.pending) (ht : fireAt ≤ now) :
      Reachable (fireDeleteTimer st rid fireAt)

/-! ### Association-list lemmas -/

theorem mapGet_mem {α : Type} {m : List (String × α)} {k : String} {v : α}
    (h : mapGet m k = some v) : (k, v) ∈ m := by
  induction m with
  | nil => simp [mapGet] at h
  | cons p rest ih =>
    obtain ⟨k', v'⟩ := p
    by_cases hk : k' = k
    · subst hk
      simp [mapGet] at h
      subst h
      exact List.mem_cons_self _ _
    · simp [mapGet, hk] at h
      exact List.mem_cons_of_mem _ (ih h)

theorem mem_mapSet {α : Type} {m : List (String × α)} {k : String} {v : α}
    {p : String × α} (h : p ∈ mapSet m k v) : p ∈ m ∨ p = (k, v) := by
  induction m with
  | nil => simpa [mapSet] using h
  | cons q rest ih =>
    obtain ⟨k', v'⟩ := q
    by_cases hk : k' = k
    · subst hk
      simp [mapSet] at h
      rcases h with h | h
      · exact Or.inr h
      · exact Or.inl (List.mem_cons_of_mem _ h)
    · simp [mapSet, hk] at h
      rcases h with h | h
      · exact Or.inl (by simp [h])
      · rcases ih h with h' | h'
        · exact Or.inl (List.mem_cons_of_mem _ h')
        · exact Or.inr h'

theorem mapSet_absent {α : Type} {m : List (String × α)} {k : String} {v : α}
    (h : mapGet m k = none) : mapSet m k v = m ++ [(k, v)] := by
  induction m with
  | nil => simp [mapSet]
  | cons q rest ih =>
    obtain ⟨k', v'⟩ := q
    by_cases hk : k' = k
    · subst hk; simp [mapGet] at h
    · simp [mapGet, hk] at h
      simp [mapSet, hk, ih h]

theorem mapGet_mapSet_self {α : Type} (m : List (String × α)) (k : String)
    (v : α) : mapGet (mapSet m k v) k = some v := by
  induction m with
  | nil => simp [mapSet, mapGet]
  | cons q rest ih =>
    obtain ⟨k', v'⟩ := q
    by_cases hk : k' = k
    · subst hk; simp [mapSet, mapGet]
    · simp [mapSet, mapGet, hk, ih]

theorem mapGet_mapDelete_self {α : Type} (m : List (String × α)) (k : String) :
    mapGet (mapDelete m k) k = none := by
  induction m with
  | nil => simp [mapDelete, mapGet]
  | cons q rest ih =>
    obtain ⟨k', v'⟩ := q
    by_cases hk : k' = k
    · simp [mapDelete, hk, ih]
    · simp [mapDelete, hk, mapGet, ih]

theorem length_mapSet_present {α : Type} {m : List (String × α)} {k : String}
    {v : α} (h : (mapGet m k).isSome = true) :
    (mapSet m k v).length = m.length := by
  induction m with
  | nil => simp [mapGet] at h
  | cons q rest ih =>
    obtain ⟨k', v'⟩ := q
    by_cases hk : k' = k
    · subst hk; simp [mapSet]
    · simp [mapGet, hk] at h
      simp [mapSet, hk, ih h]

theorem mapDelete_sublist {α : Type} (m : List (String × α)) (k : String) :
    (mapDelete m k).Sublist m := by
  induction m with
  | nil => simp [mapDelete]
  | cons q rest ih =>
    obtain ⟨k', v'⟩ := q
    by_cases hk : k' = k
    · simpa [mapDelete, hk] using ih.cons (k', v')
    · simpa [mapDelete, hk] using ih.cons₂ (k', v')

theorem mem_mapDelete {α : Type} {m : List (String × α)} {k : String}
    {p : String × α} (h : p ∈ mapDelete m k) : p ∈ m :=
  (mapDelete_sublist m k).subset h

/-! ### C10: leaveRoom for a user who is in no room -/

/-- C10: `leaveRoom(userId)` for a user with no reverse-index entry, or
whose indexed room no longer exists, returns `false` and leaves the whole
Session Store state unchanged. -/
theorem leaveRoom_no_room (st : RoomManager) (uid : String) (now : Nat)
    (h : mapGet st.userToRoom uid = none ∨
      ∃ rid, mapGet st.userToRoom uid = some rid ∧ mapGet st.rooms rid = none) :
    leaveRoom st uid now = (false, st) := by
  rcases h with h | ⟨rid, h1, h2⟩
  · simp [leaveRoom, h]
  · by_cases hr : rid = ""
    · subst hr; simp [leaveRoom, h1]
    · simp [leaveRoom, h1, hr, h2]

/-- Witness for C10 at a concrete state: the store with one room `"r"` and
no index entry for `"ghost"` is untouched. -/
def c10State : RoomManager :=
  (createRoom RoomManager.empty "r" "Room" none 10 0).2

theorem leaveRoom_no_room_witness :
    leaveRoom c10State "ghost" 5 = (false, c10State) :=
  leaveRoom_no_room c10State "ghost" 5 (Or.inl rfl)

/-! ### C3: joinRoom check order and error purity -/

/-- C3: `joinRoom` performs its checks in the order room existence,
password match (only when the room's password is truthy), capacity, then
duplicate membership, returns the corresponding error message for the
first failing check, and on every error path returns the store completely
unchanged (users map, timestamps and reverse index included). -/
theorem joinRoom_check_order (st : RoomManager) (rid uid uname : String)
    (pw : Option String) (now : Nat) :
    (mapGet st.rooms rid = none →
      joinRoom st rid uid uname pw now = (.error "Room not found", st)) ∧
    (∀ room, mapGet st.rooms rid = some room →
      passwordRejects room.password pw = true →
      joinRoom st rid uid uname pw now = (.error "Invalid password", st)) ∧
    (∀ room, mapGet st.rooms rid = some room →
      passwordRejects room.password pw = false →
      room.users.length ≥ room.maxUsers →
      joinRoom st rid uid uname pw now = (.error "Room is full", st)) ∧
    (∀ room, mapGet st.rooms rid = some room →
      passwordRejects room.password pw = false →
      room.users.length < room.maxUsers →
      (mapGet room.users uid).isSome = true →
      joinRoom st rid uid uname pw now = (.error "User already in room", st)) := by
  refine ⟨fun h => by simp [joinRoom, h], ?_, ?_, ?_⟩
  · intro room h hpw
    simp [joinRoom, h, hpw]
  · intro room h hpw hful
    simp [joinRoom, h, hpw, hful]
  · intro room h hpw hful hdup
    simp [joinRoom, h, hpw, Nat.not_le.2 hful, hdup]

/-- Concrete room and store used to witness C3. -/
def c3Room : Room :=
  { id := "r", name := "Room", password := some "secret",
    users := [], currentUrl := "https://www.google.com", createdAt := 0,
    lastActivity := 0, maxUsers := 10 }

def c3State : RoomManager :=
  { rooms := [("r", c3Room)], userToRoom := [], pending := [] }

/-- Witness for C3: joining `"r"` with the wrong password returns
`Invalid password` and mutates nothing. -/
theorem joinRoom_check_order_witness :
    joinRoom c3State "r" "u" "U" (some "wrong") 3 =
      (.error "Invalid password", c3State) :=
  (joinRoom_check_order c3State "r" "u" "U" (some "wrong") 3).2.1 c3Room rfl
    (by decide)

/-! ### Signaling Relay handlers -/

/-- One `emit` performed by a `SignalingHandler` room handler: the event
name, the socket ids it is delivered to, and the payload fields used by the
room events (`userId`, the member list, the url, `changedBy`). -/
structure Emission where
  event : String
  recipients : List String
  userId : Option String
  payloadUsers : List User
  payloadUrl : Option String
  changedBy : Option String
deriving Repr, DecidableEq

/-- Delivery set of `socket.to(roomId).emit(...)`: every socket in the
Socket.IO room except the sender.  Sockets join/leave the Socket.IO room in
lock-step with `RoomManager` membership, so the set is the room's member
ids minus the sender. -/
def roomRecipientsExcept (st : RoomManager) (rid sid : String) : List String :=
  ((getRoomUsers st rid).map (fun u => u.id)).filter (fun i => i != sid)

/-- `SignalingHandler.handleLeaveRoom`: looks the room up first, then
leaves, then emits `user-left` with the updated member list to the
remaining members. -/
def handleLeaveRoom (st : RoomManager) (sid : String) (now : Nat) :
    RoomManager × List Emission :=
  match getUserRoom st sid with
  | none => (st, [])
  | some room =>
    let st' := (leaveRoom st sid now).2
    (st',
      [{ event := "user-left",
         recipients := roomRecipientsExcept st' room.id sid,
         userId := some sid,
         payloadUsers := getRoomUsers st' room.id,
         payloadUrl := none, changedBy := none }])

/-- `SignalingHandler.handleDisconnect`: calls `leaveRoom(socket.id)`
first, and only then looks the user's room up to notify it with
`user-disconnected`. -/
def handleDisconnect (st : RoomManager) (sid : String) (now : Nat) :
    RoomManager × List Emission :=
  let st' := (leaveRoom st sid now).2
  match getUserRoom st' sid with
  | none => (st', [])
  | some room =>
    (st',
      [{ event := "user-disconnected",
         recipients := roomRecipientsExcept st' room.id sid,
         userId := some sid,
         payloadUsers := getRoomUsers st' room.id,
         payloadUrl := none, changedBy := none }])

/-- `SignalingHandler.handleUrlChange`: updates the room's URL through the
store and broadcasts `url-changed` to the whole room, sender included
(`io.to(room.id)`). -/
def handleUrlChange (st : RoomManager) (sid url : String) (now : Nat) :
    RoomManager × List Emission :=
  match getUserRoom st sid with
  | none => (st, [])
  | some room =>
    let st' := (updateRoomUrl st room.id url now).2
    (st',
      [{ event := "url-changed",
         recipients := (getRoomUsers st' room.id).map (fun u => u.id),
         userId := none, payloadUsers := [],
         payloadUrl := some url, changedBy := some sid }])

/-! ### C2: disconnect notification -/

theorem mapGet_mapDelete_ne {α : Type} {m : List (String × α)} {k k' : String}
    (h : k' ≠ k) : mapGet (mapDelete m k) k' = mapGet m k' := by
  have hkk : ¬(k = k') := fun he => h he.symm
  induction m with
  | nil => simp [mapDelete, mapGet]
  | cons q rest ih =>
    obtain ⟨k0, v0⟩ := q
    by_cases hk : k0 = k
    · simp [mapDelete, hk, mapGet, hkk, ih]
    · by_cases hk' : k0 = k'
      · simp [mapDelete, hk, mapGet, hk', h, ih]
      · simp [mapDelete, hk, mapGet, hk', ih]

/-- C2 (code bug): the `user-disconnected` notification is never emitted.
`handleDisconnect` removes the user (and their reverse-index entry) via
`leaveRoom` before calling `getUserRoom`, so the lookup always comes back
empty and the remaining members are never notified, contradicting the
claim (and the handler's own stated purpose) for the connection-close
path. -/
theorem handleDisconnect_never_notifies (st : RoomManager) (sid : String)
    (now : Nat) : (handleDisconnect st sid now).2 = [] := by
  have hget : getUserRoom (leaveRoom st sid now).2 sid = none := by
    rcases hidx : mapGet st.userToRoom sid with _ | rid
    · simp [leaveRoom, hidx, getUserRoom]
    · by_cases hr : rid = ""
      · subst hr
        simp [leaveRoom, hidx, getUserRoom]
      · rcases hroom : mapGet st.rooms rid with _ | room
        · simp [leaveRoom, hidx, hr, hroom, getUserRoom]
        · simp only [leaveRoom, hidx, hr, if_false, hroom]
          simp [getUserRoom, mapGet_mapDelete_self]
  simp only [handleDisconnect, hget]

/-! ### C5: grace-period room deletion -/

/-- C5: when the last user leaves a room, the room is not deleted
immediately: it stays resolvable and a deletion timer for
`now + gracePeriodMs` is scheduled.  The scheduled callback re-checks the
room: fired against a non-empty room (any rejoin before it fires) it
leaves the `rooms` map untouched, and it deletes the room only when the
room is still empty at firing time. -/
theorem leaveRoom_grace_period (st : RoomManager) (uid rid : String)
    (room : Room) (now : Nat)
    (h1 : mapGet st.userToRoom uid = some rid) (h2 : rid ≠ "")
    (h3 : mapGet st.rooms rid = some room)
    (h4 : (mapDelete room.users uid).isEmpty = true) :
    (mapGet (leaveRoom st uid now).2.rooms rid).isSome = true ∧
    (rid, now + gracePeriodMs) ∈ (leaveRoom st uid now).2.pending ∧
    (∀ st2 room2 fireAt, mapGet st2.rooms rid = some room2 →
      room2.users.isEmpty = false →
      (fireDeleteTimer st2 rid fireAt).rooms = st2.rooms) ∧
    (∀ st2 room2 fireAt, mapGet st2.rooms rid = some room2 →
      room2.users.isEmpty = true →
      mapGet (fireDeleteTimer st2 rid fireAt).rooms rid = none) := by
  refine ⟨?_, ?_, ?_, ?_⟩
  · simp [leaveRoom, h1, h2, h3, h4, mapGet_mapSet_self]
  · simp [leaveRoom, h1, h2, h3, h4]
  · intro st2 room2 fireAt hg hne
    simp [fireDeleteTimer, hg, hne]
  · intro st2 room2 fireAt hg he
    simp [fireDeleteTimer, hg, he, mapGet_mapDelete_self]

/-- Concrete store for the C5 witness: room `"r"` holding only `"a"`. -/
def c5State : RoomManager :=
  (joinRoom (createRoom RoomManager.empty "r" "Room" none 10 0).2
    "r" "a" "A" none 0).2

/-- The room `"r"` as it stands in `c5State`. -/
def c5Room : Room :=
  { id := "r", name := "Room", password := none,
    users := [("a", { id := "a", name := "A", isHost := true,
                      joinedAt := 0, lastActivity := 0 })],
    currentUrl := "https://www.google.com", createdAt := 0,
    lastActivity := 0, maxUsers := 10 }

theorem leaveRoom_grace_period_witness :
    (mapGet (leaveRoom c5State "a" 7).2.rooms "r").isSome = true ∧
    ("r", 7 + gracePeriodMs) ∈ (leaveRoom c5State "a" 7).2.pending ∧
    (∀ st2 room2 fireAt, mapGet st2.rooms "r" = some room2 →
      room2.users.isEmpty = false →
      (fireDeleteTimer st2 "r" fireAt).rooms = st2.rooms) ∧
    (∀ st2 room2 fireAt, mapGet st2.rooms "r" = some room2 →
      room2.users.isEmpty = true →
      mapGet (fireDeleteTimer st2 "r" fireAt).rooms "r" = none) :=
  leaveRoom_grace_period c5State "a" "r" c5Room 7
    (by decide) (by decide) (by decide) (by decide)

/-! ### C7: url-change broadcast -/

/-- C7: when a room member sends `url-change{url}`, the room's
`currentUrl` (and `lastActivity`) is updated and a single
`url-changed{url, changedBy}` event is broadcast to every member of the
room — the sender included — so every member observes the new URL.  The
id-consistency hypotheses (`room.id` is the map key, the sender's `User`
record carries the sender's id) hold for every room built by
`createRoom`/`joinRoom`. -/
theorem handleUrlChange_broadcast (st : RoomManager) (sid url rid : String)
    (room : Room) (u : User) (now : Nat)
    (h1 : mapGet st.userToRoom sid = some rid) (h2 : rid ≠ "")
    (h3 : mapGet st.rooms rid = some room) (h4 : room.id = rid)
    (h5 : mapGet room.users sid = some u) (h6 : u.id = sid) :
    mapGet (handleUrlChange st sid url now).1.rooms rid =
      some { room with currentUrl := url, lastActivity := now } ∧
    (handleUrlChange st sid url now).2 =
      [{ event := "url-changed",
         recipients := room.users.map (fun p => p.2.id),
         userId := none, payloadUsers := [],
         payloadUrl := some url, changedBy := some sid }] ∧
    sid ∈ room.users.map (fun p => p.2.id) := by
  have hmem : sid ∈ room.users.map (fun p => p.2.id) := by
    have := mapGet_mem h5
    exact List.mem_map.2 ⟨(sid, u), this, h6⟩
  have hguser : getUserRoom st sid = some room := by
    simp [getUserRoom, h1, h2, h3]
  refine ⟨?_, ?_, hmem⟩
  · simp [handleUrlChange, hguser, updateRoomUrl, h4, h3, mapGet_mapSet_self]
  · simp only [handleUrlChange, hguser]
    simp [updateRoomUrl, h4, h3, getRoomUsers, mapGet_mapSet_self]

/-- Concrete store for the C7/C9 witnesses: room `"r"` with host `"a"`
and members `"b"`, `"c"` (in that join order). -/
def c7State : RoomManager :=
  (joinRoom (joinRoom (joinRoom
    (createRoom RoomManager.empty "r" "Room" none 10 0).2
    "r" "a" "A" none 1).2
    "r" "b" "B" none 2).2
    "r" "c" "C" none 3).2

/-- Room `"r"` as it stands in `c7State`. -/
def c7Room : Room :=
  { id := "r", name := "Room", password := none,
    users :=
      [("a", { id := "a", name := "A", isHost := true,
               joinedAt := 1, lastActivity := 1 }),
       ("b", { id := "b", name := "B", isHost := false,
               joinedAt := 2, lastActivity := 2 }),
       ("c", { id := "c", name := "C", isHost := false,
               joinedAt := 3, lastActivity := 3 })],
    currentUrl := "https://www.google.com", createdAt := 0,
    lastActivity := 3, maxUsers := 10 }

/-- Witness for C7: member `"b"` changes the URL; the room is updated and
the broadcast goes to `"a"`, `"b"`, `"c"` — the sender among them. -/
theorem handleUrlChange_broadcast_witness :
    mapGet (handleUrlChange c7State "b" "https://example.com" 9).1.rooms "r" =
      some { c7Room with currentUrl := "https://example.com", lastActivity := 9 } ∧
    (handleUrlChange c7State "b" "https://example.com" 9).2 =
      [{ event := "url-changed",
         recipients := c7Room.users.map (fun p => p.2.id),
         userId := none, payloadUsers := [],
         payloadUrl := some "https://example.com", changedBy := some "b" }] ∧
    "b" ∈ c7Room.users.map (fun p => p.2.id) :=
  handleUrlChange_broadcast c7State "b" "https://example.com" "r" c7Room
    { id := "b", name := "B", isHost := false, joinedAt := 2, lastActivity := 2 }
    9 (by decide) (by decide) (by decide) (by decide) (by decide) (by decide)

/-! ### C9: deterministic host promotion -/

/-- Number of hosts among a room's users. -/
def hostCount (l : List (String × User)) : Nat :=
  l.countP (fun p => p.2.isHost)

/-- C9: when the departing user leaves a still-non-empty room in which no
remaining member is host, `leaveRoom` promotes exactly the first remaining
entry of the users map's insertion order (the earliest joiner among the
remaining members): that entry's `isHost` becomes `true`, every other
entry is unchanged, and the room ends with exactly one host. -/
theorem leaveRoom_promotes_first (st : RoomManager) (uid rid : String)
    (room : Room) (now : Nat)
    (h1 : mapGet st.userToRoom uid = some rid) (h2 : rid ≠ "")
    (h3 : mapGet st.rooms rid = some room)
    (h4 : (mapDelete room.users uid).isEmpty = false)
    (h5 : (mapDelete room.users uid).any (fun p => p.2.isHost) = false) :
    ∃ k u rest, mapDelete room.users uid = (k, u) :: rest ∧
      mapGet (leaveRoom st uid now).2.rooms rid =
        some { room with users := (k, { u with isHost := true }) :: rest } ∧
      hostCount ((k, { u with isHost := true }) :: rest) = 1 := by
  rcases hsplit : mapDelete room.users uid with _ | ⟨⟨k, u⟩, rest⟩
  · rw [hsplit] at h4
    simp at h4
  · refine ⟨k, u, rest, rfl, ?_, ?_⟩
    · have h5' : (((k, u) :: rest).any fun p => p.2.isHost) = false := hsplit ▸ h5
      simp [leaveRoom, h1, h2, h3, hsplit, promoteIfHostless, h5',
        mapGet_mapSet_self]
    · have hrest : rest.countP (fun p => p.2.isHost) = 0 := by
        rw [hsplit] at h5
        simp only [List.any_cons, Bool.or_eq_false_iff] at h5
        exact List.countP_eq_zero.2 (by
          intro a ha
          simpa using (List.any_eq_false.1 h5.2) a ha)
      simp [hostCount, List.countP_cons, hrest]

/-- Witness for C9: host `"a"` leaves `c7State`; `"b"` — the earliest
remaining joiner — is promoted, `"c"` is untouched, one host remains. -/
theorem leaveRoom_promotes_first_witness :
    ∃ k u rest, mapDelete c7Room.users "a" = (k, u) :: rest ∧
      mapGet (leaveRoom c7State "a" 11).2.rooms "r" =
        some { c7Room with users := (k, { u with isHost := true }) :: rest } ∧
      hostCount ((k, { u with isHost := true }) :: rest) = 1 :=
  leaveRoom_promotes_first c7State "a" "r" c7Room 11
    (by decide) (by decide) (by decide) (by decide) (by decide)

/-! ### C1: single-host invariant -/

/-- The claimed invariant: every non-empty room has exactly one host. -/
def hostInvariant (st : RoomManager) : Prop :=
  ∀ p ∈ st.rooms, (p : String × Room).2.users.isEmpty = false →
    hostCount p.2.users = 1

/-- Bool check that a given room of the store violates the single-host
invariant (non-empty but not exactly one host). -/
def roomHostViolation (st : RoomManager) (rid : String) : Bool :=
  match mapGet st.rooms rid with
  | some room => !room.users.isEmpty && hostCount room.users != 1
  | none => false

/-- Reachable store refuting C1: host `"a"` and member `"b"` join room
`"r"`; `"b"` is active at time 2000000 while `"a"` last acted at time 0;
`cleanup` at 2000000 then removes the inactive host without promoting
anyone, leaving a non-empty room with zero hosts. -/
def c1CexState : RoomManager :=
  cleanup
    (updateUserActivity
      (joinRoom
        (joinRoom (createRoom RoomManager.empty "r" "Room" none 10 0).2
          "r" "a" "A" none 0).2
        "r" "b" "B" none 0).2
      "b" 2000000)
    2000000

/-- Counterexample to C1 as stated: `c1CexState` is reachable by Session
Store operations, yet its room `"r"` is non-empty with no host —
`cleanup` removes an inactive host without reassigning one. -/
theorem cleanup_drops_host_counterexample :
    Reachable c1CexState ∧ roomHostViolation c1CexState "r" = true :=
  ⟨Reachable.step_cleanup
    (Reachable.step_activity
      (Reachable.step_join
        (Reachable.step_join
          (Reachable.step_create Reachable.init "r" "Room" none 10 0)
          "r" "a" "A" none 0)
        "r" "b" "B" none 0)
      "b" 2000000)
    2000000,
   by decide⟩

theorem hostCount_promoteIfHostless (l : List (String × User))
    (hle : hostCount l ≤ 1) (hne : l.isEmpty = false) :
    hostCount (promoteIfHostless l) = 1 := by
  unfold promoteIfHostless
  rw [hne]
  simp only [Bool.false_eq_true, if_false]
  by_cases hany : (l.any fun p => p.2.isHost) = true
  · rw [hany]
    simp only [if_true]
    obtain ⟨x, hx, hhost⟩ := List.any_eq_true.1 hany
    have hpos : 0 < hostCount l :=
      List.countP_pos_iff.2 ⟨x, hx, by simpa using hhost⟩
    omega
  · rw [Bool.eq_false_iff.2 hany]
    simp only [Bool.false_eq_true, if_false]
    rcases l with _ | ⟨⟨k, u⟩, rest⟩
    · simp at hne
    · have hzero : rest.countP (fun p => p.2.isHost) = 0 := by
        refine List.countP_eq_zero.2 ?_
        intro a ha
        have := List.any_eq_false.1 (Bool.eq_false_iff.2 hany) a
          (List.mem_cons_of_mem _ ha)
        simpa using this
      simp [hostCount, List.countP_cons, hzero]

theorem hostInvariant_joinRoom (st : RoomManager) (h : hostInvariant st)
    (rid uid uname : String) (pw : Option String) (now : Nat) :
    hostInvariant (joinRoom st rid uid uname pw now).2 := by
  unfold joinRoom
  split
  · exact h
  · rename_i room hroom
    split
    · exact h
    · split
      · exact h
      · split
        · exact h
        · rename_i hpw hful hdup
          intro p hp hne
          rcases mem_mapSet hp with hmem | heq
          · exact h p hmem hne
          · rw [heq]
            have hnone : mapGet room.users uid = none := by
              cases hx : mapGet room.users uid with
              | none => rfl
              | some u => exact absurd (by simp [hx]) hdup
            show hostCount (mapSet room.users uid _) = 1
            rw [mapSet_absent hnone]
            rcases hemp : room.users.isEmpty with _ | _
            · have h1 : hostCount room.users = 1 :=
                h (rid, room) (mapGet_mem hroom) hemp
              simp [hostCount, List.countP_append, List.countP_cons, hemp] at h1 ⊢
              simpa [hemp] using h1
            · have hnil : room.users = [] := List.isEmpty_iff.1 hemp
              simp [hnil, hostCount, List.countP_cons, hemp]

theorem hostInvariant_leaveRoom (st : RoomManager) (h : hostInvariant st)
    (uid : String) (now : Nat) :
    hostInvariant (leaveRoom st uid now).2 := by
  unfold leaveRoom
  split
  · exact h
  · rename_i rid hidx
    split
    · exact h
    · split
      · exact h
      · rename_i room hroom
        intro p hp hne
        rcases mem_mapSet hp with hmem | heq
        · exact h p hmem hne
        · rw [heq]
          rw [heq] at hne
          show hostCount (promoteIfHostless (mapDelete room.users uid)) = 1
          have hsub : hostCount (mapDelete room.users uid) ≤
              hostCount room.users :=
            (mapDelete_sublist room.users uid).countP_le _
          have hne' : (mapDelete room.users uid).isEmpty = false := by
            by_contra hx
            have : (mapDelete room.users uid).isEmpty = true := by
              cases hy : (mapDelete room.users uid).isEmpty
              · exact absurd hy hx
              · rfl
            rw [heq] at hp
            simp only [promoteIfHostless, this] at hne
            rw [List.isEmpty_iff.1 this] at hne
            simp [promoteIfHostless] at hne
          have horigne : room.users.isEmpty = false := by
            cases hy : room.users.isEmpty
            · rfl
            · rw [List.isEmpty_iff.1 hy] at hne'
              simp [mapDelete] at hne'
          have h1 : hostCount room.users = 1 :=
            h (rid, room) (mapGet_mem hroom) horigne
          exact hostCount_promoteIfHostless _ (h1 ▸ hsub) hne'

/-- C1 (amended): the single-host invariant — a non-empty room has exactly
one host — is preserved by `joinRoom` and by `leaveRoom`; it is *not*
preserved by `cleanup`, which can remove an inactive host and leave the
room non-empty with no host (see `cleanup_drops_host_counterexample`). -/
theorem hostInvariant_join_leave (st : RoomManager) (h : hostInvariant st)
    (rid uid uname : String) (pw : Option String) (now : Nat)
    (uid2 : String) (now2 : Nat) :
    hostInvariant (joinRoom st rid uid uname pw now).2 ∧
    hostInvariant (leaveRoom st uid2 now2).2 :=
  ⟨hostInvariant_joinRoom st h rid uid uname pw now,
   hostInvariant_leaveRoom st h uid2 now2⟩

/-- Witness for the amended C1 at the concrete store `c7State`: a join of
`"d"` and the departure of host `"a"` both keep exactly one host. -/
theorem hostInvariant_join_leave_witness :
    hostInvariant (joinRoom c7State "r" "d" "D" none 5).2 ∧
    hostInvariant (leaveRoom c7State "a" 6).2 :=
  hostInvariant_join_leave c7State
    (by unfold hostInvariant; decide) "r" "d" "D" none 5 "a" 6

/-! ### C4: capacity invariant -/

/-- The capacity invariant: every room holds at most `maxUsers` users. -/
def sizeInvariant (st : RoomManager) : Prop :=
  ∀ p ∈ st.rooms, (p : String × Room).2.users.length ≤ p.2.maxUsers

theorem promoteIfHostless_length (l : List (String × User)) :
    (promoteIfHostless l).length = l.length := by
  unfold promoteIfHostless
  split
  · rfl
  · split
    · rfl
    · rcases l with _ | ⟨⟨k, u⟩, rest⟩
      · rfl
      · simp

theorem cleanupRooms_mem {now : Nat} {l : List (String × Room)}
    {p : String × Room} (h : p ∈ (cleanupRooms now l).1) :
    ∃ room0, (p.1, room0) ∈ l ∧
      p.2 = { room0 with
        users := room0.users.filter (fun q => !userInactive now q.2) } := by
  induction l with
  | nil => simp [cleanupRooms] at h
  | cons q rest ih =>
    obtain ⟨rid, room⟩ := q
    simp only [cleanupRooms] at h
    split at h
    · obtain ⟨room0, hmem, heq⟩ := ih h
      exact ⟨room0, List.mem_cons_of_mem _ hmem, heq⟩
    · rcases List.mem_cons.1 h with heq | hmem
      · refine ⟨room, ?_, ?_⟩
        · rw [heq]
          exact List.mem_cons_self _ _
        · rw [heq]
      · obtain ⟨room0, hmem0, heq0⟩ := ih hmem
        exact ⟨room0, List.mem_cons_of_mem _ hmem0, heq0⟩

theorem sizeInv_createRoom (st : RoomManager) (h : sizeInvariant st)
    (rid name : String) (pw : Option String) (mx now : Nat) :
    sizeInvariant (createRoom st rid name pw mx now).2 := by
  intro p hp
  rcases mem_mapSet hp with hmem | heq
  · exact h p hmem
  · rw [heq]
    exact Nat.zero_le _

theorem sizeInv_joinRoom (st : RoomManager) (h : sizeInvariant st)
    (rid uid uname : String) (pw : Option String) (now : Nat) :
    sizeInvariant (joinRoom st rid uid uname pw now).2 := by
  unfold joinRoom
  split
  · exact h
  · rename_i room hroom
    split
    · exact h
    · split
      · exact h
      · split
        · exact h
        · rename_i hpw hful hdup
          intro p hp
          rcases mem_mapSet hp with hmem | heq
          · exact h p hmem
          · rw [heq]
            show (mapSet room.users uid _).length ≤ room.maxUsers
            have hnone : mapGet room.users uid = none := by
              cases hx : mapGet room.users uid with
              | none => rfl
              | some u => exact absurd (by simp [hx]) hdup
            rw [mapSet_absent hnone, List.length_append]
            have hlt : room.users.length < room.maxUsers := Nat.lt_of_not_le hful
            simpa using hlt

theorem sizeInv_leaveRoom (st : RoomManager) (h : sizeInvariant st)
    (uid : String) (now : Nat) : sizeInvariant (leaveRoom st uid now).2 := by
  unfold leaveRoom
  split
  · exact h
  · rename_i rid hidx
    split
    · exact h
    · split
      · exact h
      · rename_i room hroom
        intro p hp
        rcases mem_mapSet hp with hmem | heq
        · exact h p hmem
        · rw [heq]
          show (promoteIfHostless (mapDelete room.users uid)).length ≤
            room.maxUsers
          rw [promoteIfHostless_length]
          exact le_trans (mapDelete_sublist _ _).length_le
            (h (rid, room) (mapGet_mem hroom))

theorem sizeInv_updateRoomUrl (st : RoomManager) (h : sizeInvariant st)
    (rid url : String) (now : Nat) :
    sizeInvariant (updateRoomUrl st rid url now).2 := by
  unfold updateRoomUrl
  split
  · exact h
  · rename_i room hroom
    intro p hp
    rcases mem_mapSet hp with hmem | heq
    · exact h p hmem
    · rw [heq]
      exact h (rid, room) (mapGet_mem hroom)

theorem sizeInv_updateUserActivity (st : RoomManager) (h : sizeInvariant st)
    (uid : String) (now : Nat) :
    sizeInvariant (updateUserActivity st uid now) := by
  unfold updateUserActivity
  split
  · exact h
  · rename_i rid hidx
    split
    · exact h
    · split
      · exact h
      · rename_i room hroom
        intro p hp
        rcases mem_mapSet hp with hmem | heq
        · exact h p hmem
        · rw [heq]
          have hb := h (rid, room) (mapGet_mem hroom)
          cases hu : mapGet room.users uid with
          | none => simpa [hu] using hb
          | some u =>
            have hl : (mapSet room.users uid
                { u with lastActivity := now }).length = room.users.length :=
              length_mapSet_present (by simp [hu])
            simpa [hu, hl] using hb

theorem sizeInv_cleanup (st : RoomManager) (h : sizeInvariant st) (now : Nat) :
    sizeInvariant (cleanup st now) := by
  intro p hp
  obtain ⟨room0, hmem, heq⟩ := cleanupRooms_mem hp
  rw [heq]
  exact le_trans (List.length_filter_le _ _) (h (p.1, room0) hmem)

theorem sizeInv_fireDeleteTimer (st : RoomManager) (h : sizeInvariant st)
    (rid : String) (fireAt : Nat) :
    sizeInvariant (fireDeleteTimer st rid fireAt) := by
  unfold fireDeleteTimer
  split
  · rename_i room hroom
    split
    · intro p hp
      exact h p (mem_mapDelete hp)
    · exact h
  · exact h

theorem sizeInvariant_of_reachable {st : RoomManager} (h : Reachable st) :
    sizeInvariant st := by
  induction h with
  | init => intro p hp; simp [RoomManager.empty] at hp
  | step_create h rid name pw mx now ih => exact sizeInv_createRoom _ ih _ _ _ _ _
  | step_join h rid uid uname pw now ih => exact sizeInv_joinRoom _ ih _ _ _ _ _
  | step_leave h uid now ih => exact sizeInv_leaveRoom _ ih _ _
  | step_url h rid url now ih => exact sizeInv_updateRoomUrl _ ih _ _ _
  | step_activity h uid now ih => exact sizeInv_updateUserActivity _ ih _ _
  | step_cleanup h now ih => exact sizeInv_cleanup _ ih _
  | step_fire h rid fireAt now hmem ht ih => exact sizeInv_fireDeleteTimer _ ih _ _

/-- C4: in every reachable Session Store state, every room satisfies
`users.size ≤ maxUsers`; and `joinRoom` against a room already at
capacity (once existence and password checks pass) returns the
`Room is full` error and changes nothing — in particular adds no user. -/
theorem capacity_invariant_and_full_join (st : RoomManager)
    (h : Reachable st) :
    sizeInvariant st ∧
    (∀ rid room uid uname pw now, mapGet st.rooms rid = some room →
      passwordRejects room.password pw = false →
      room.users.length ≥ room.maxUsers →
      joinRoom st rid uid uname pw now = (.error "Room is full", st)) := by
  refine ⟨sizeInvariant_of_reachable h, ?_⟩
  intro rid room uid uname pw now hroom hpw hful
  simp [joinRoom, hroom, hpw, hful]

/-- Concrete reachable store for the C4 witness: room `"r"` with
`maxUsers = 1`, already holding `"a"`. -/
def c4State : RoomManager :=
  (joinRoom (createRoom RoomManager.empty "r" "Tiny" none 1 0).2
    "r" "a" "A" none 0).2

/-- Room `"r"` as it stands in `c4State`. -/
def c4Room : Room :=
  { id := "r", name := "Tiny", password := none,
    users := [("a", { id := "a", name := "A", isHost := true,
                      joinedAt := 0, lastActivity := 0 })],
    currentUrl := "https://www.google.com", createdAt := 0,
    lastActivity := 0, maxUsers := 1 }

/-- Witness for C4: `c4State` satisfies the capacity invariant, and a
further join into the full room `"r"` yields `Room is full` untouched. -/
theorem capacity_invariant_and_full_join_witness :
    sizeInvariant c4State ∧
    joinRoom c4State "r" "b" "B" none 4 = (.error "Room is full", c4State) := by
  have hreach : Reachable c4State :=
    Reachable.step_join
      (Reachable.step_create Reachable.init "r" "Tiny" none 1 0)
      "r" "a" "A" none 0
  exact ⟨(capacity_invariant_and_full_join c4State hreach).1,
    (capacity_invariant_and_full_join c4State hreach).2 "r" c4Room "b" "B"
      none 4 (by decide) (by decide) (by decide)⟩

/-! ### Browser Automation Engine (`BrowserService`) -/

/-- Driver tiers of the `BrowserService` (`browserType` field plus the
`http` fallback it switches to when only an HTTP client is available). -/
inductive BrowserType where
  | playwright
  | puppeteer
  | http
  | mock
deriving Repr, DecidableEq, BEq

/-- State of the `BrowserService` singleton.  `hasBrowser`/`hasPage` embed
the nullability of the `browser`/`page` handles; `streamingClients` is the
keys of the peer-connection map; `streamingInterval` is the (single)
stored capture-interval handle, tagged by the client id its closure
captures; `runningLoops` is every capture interval that has been started
and not cleared; `ioSockets` is the ids of the sockets connected to the
service's own Socket.IO server, among which the capture loop looks its
target up. -/
structure BrowserService where
  browserType : BrowserType
  currentUrl : String
  isInitialized : Bool
  hasBrowser : Bool
  hasPage : Bool
  streamingClients : List String
  streamingInterval : Option String
  runningLoops : List String
  ioSockets : List String
deriving Repr, DecidableEq

/-- Which automation libraries resolved at process start (the module-level
`require` probes for playwright / puppeteer / axios). -/
structure Libs where
  hasPlaywright : Bool
  hasPuppeteer : Bool
  hasAxios : Bool
deriving Repr, DecidableEq

/-- Where a driver launch attempt of `initializeBrowser` fails, if it
does.  The source assigns `this.browser = await launch(...)` and then
`this.page = await this.browser.newPage()` *before* the viewport setup
and the initial `page.goto` that can also throw (an observed failure
mode: `page.goto: net::ERR_ABORTED`), and the surrounding `catch` does
not null the handles — so a launch can fail before `browser` is
assigned, after `browser` but before `page`, or after both handles are
live. -/
inductive LaunchOutcome where
  | ok
  | failLaunch
  | failNewPage
  | failLate
deriving Repr, DecidableEq, BEq

/-- `initializeBrowser`'s teardown of a stale browser: the source closes
and nulls `browser` and `page` only when `this.browser` is set. -/
def closeStale (svc : BrowserService) : BrowserService :=
  if svc.hasBrowser then { svc with hasBrowser := false, hasPage := false }
  else svc

/-- One driver-tier block of `initializeBrowser` (the playwright and
puppeteer blocks share this assignment structure).  On `ok` the tier and
`isInitialized` are set and the chain stops; each failure case falls
through to the next tier, leaving behind exactly the handles that had
already been assigned when the exception struck. -/
def attemptDriver (present : Bool) (res : LaunchOutcome) (tier : BrowserType)
    (svc : BrowserService) : BrowserService × Bool :=
  if present then
    match res with
    | .ok =>
      let svcOk :=
        { svc with hasBrowser := true, hasPage := true,
                   browserType := tier, isInitialized := true }
      (svcOk, true)
    | .failLaunch => (svc, false)
    | .failNewPage => ({ svc with hasBrowser := true }, false)
    | .failLate => ({ svc with hasBrowser := true, hasPage := true }, false)
  else (svc, false)

/-- The axios / mock tail of `initializeBrowser`: with axios the tier
becomes http and the service counts as initialized, otherwise mock and
not initialized.  Neither branch touches the (possibly stale) browser and
page handles. -/
def httpOrMock (hasAxios : Bool) (svc : BrowserService) : BrowserService :=
  if hasAxios then { svc with browserType := .http, isInitialized := true }
  else { svc with browserType := .mock, isInitialized := false }

/-- `BrowserService.initializeBrowser` (named `initBrowser` here): no-op
when a browser and page are already initialized; otherwise closes any
stale browser handle and walks the tier chain — playwright, puppeteer,
http (axios), mock — with `pwRes`/`ppRes` saying where each real-driver
launch attempt fails, if it does. -/
def initBrowser (libs : Libs) (pwRes ppRes : LaunchOutcome)
    (svc : BrowserService) : BrowserService :=
  if svc.isInitialized && svc.hasBrowser && svc.hasPage then svc
  else
    let a1 := attemptDriver libs.hasPlaywright pwRes .playwright (closeStale svc)
    if a1.2 then a1.1
    else
      let a2 := attemptDriver libs.hasPuppeteer ppRes .puppeteer a1.1
      if a2.2 then a2.1
      else httpOrMock libs.hasAxios a2.1

/-- `startStreaming(clientId)`: bails out if the page is not ready or the
client has no stored peer connection; otherwise stores a new 100 ms
capture interval in `streamingInterval` (overwriting the previous handle)
and the loop starts running. -/
def startStreaming (svc : BrowserService) (clientId : String) :
    BrowserService :=
  if !(svc.hasPage && svc.isInitialized) then svc
  else if !(svc.streamingClients.contains clientId) then svc
  else { svc with streamingInterval := some clientId,
                  runningLoops := clientId :: svc.runningLoops }

/-- One tick of the capture loop started for `clientId`: returns the id
the `browser-frame` message is emitted to, if any.  The loop body only
checks `page`/`isInitialized`, captures a screenshot (`capOk` — a failed
capture is caught and skips the send), then emits to whichever socket of
the service's own Socket.IO server has the captured client id. -/
def streamTick (svc : BrowserService) (clientId : String) (capOk : Bool) :
    Option String :=
  if svc.hasPage && svc.isInitialized then
    if capOk then
      if svc.ioSockets.contains clientId then some clientId else none
    else none
  else none

/-- The `client-disconnected` handler: closes and forgets the peer
connection of the given client — and nothing else (the capture interval is
left running). -/
def clientDisconnected (svc : BrowserService) (clientId : String) :
    BrowserService :=
  if svc.streamingClients.contains clientId then
    { svc with streamingClients := svc.streamingClients.erase clientId }
  else svc

/-- `BrowserService.stop()`: clears the stored capture interval, closes
every peer connection, tears the page and browser down and resets the
tier to mock. -/
def stopService (svc : BrowserService) : BrowserService :=
  { svc with
    streamingInterval := none,
    runningLoops :=
      match svc.streamingInterval with
      | some c => svc.runningLoops.erase c
      | none => svc.runningLoops,
    streamingClients := [],
    hasPage := false, hasBrowser := false,
    isInitialized := false, browserType := .mock }

/-! ### C6: streaming stops on disconnect -/

/-- Concrete service state for the C6 counterexample: a ready playwright
driver streaming to peer `"c1"`, whose socket is connected. -/
def c6Service : BrowserService :=
  { browserType := .playwright, currentUrl := "https://www.google.com",
    isInitialized := true, hasBrowser := true, hasPage := true,
    streamingClients := ["c1"], streamingInterval := some "c1",
    runningLoops := ["c1"], ioSockets := ["c1"] }

/-- Counterexample to C6 as stated: after peer `"c1"` explicitly
disconnects (`client-disconnected`), its peer connection is gone, yet the
capture loop is still running and the very next tick still emits a
`browser-frame` to `"c1"` — the loop does not stop and the disconnected
peer can keep receiving frames. -/
theorem streaming_survives_disconnect_counterexample :
    (clientDisconnected c6Service "c1").streamingClients = [] ∧
    "c1" ∈ (clientDisconnected c6Service "c1").runningLoops ∧
    streamTick (clientDisconnected c6Service "c1") "c1" true = some "c1" := by
  decide

/-- C6 (amended): `client-disconnected` only closes and removes the
peer's connection; it clears no interval, so the capture loop keeps
running and its per-tick behaviour is completely unchanged.  Frame sends
stop only for reasons independent of the peer's disconnection: the page
being gone/uninitialized, or `stop()` tearing the whole service down. -/
theorem client_disconnect_leaves_loop_running (svc : BrowserService)
    (c : String) (capOk : Bool) :
    (clientDisconnected svc c).streamingClients =
      svc.streamingClients.erase c ∧
    (clientDisconnected svc c).runningLoops = svc.runningLoops ∧
    (clientDisconnected svc c).streamingInterval = svc.streamingInterval ∧
    streamTick (clientDisconnected svc c) c capOk = streamTick svc c capOk ∧
    streamTick (stopService svc) c capOk = none ∧
    streamTick { svc with hasPage := false } c capOk = none := by
  refine ⟨?_, ?_, ?_, ?_, ?_, ?_⟩
  · unfold clientDisconnected
    split
    · rfl
    · rename_i hc
      have hnm : c ∉ svc.streamingClients := fun hm => hc (by simpa using hm)
      rw [List.erase_of_not_mem hnm]
  · unfold clientDisconnected; split <;> rfl
  · unfold clientDisconnected; split <;> rfl
  · unfold clientDisconnected streamTick; split <;> rfl
  · simp [stopService, streamTick]
  · simp [streamTick]

/-! ### C8: screenshot placeholder under driver failure -/

/-- Response of `GET /screenshot`: a real PNG capture, the synthesized
SVG placeholder, or an HTTP error status. -/
inductive ScreenshotResp where
  | png
  | svg (content : String)
  | httpError (code : Nat)
deriving Repr, DecidableEq

/-- Text of the placeholder SVG before the interpolated current URL
(the `width`/`height` template constants are 1280 and 720). -/
def screenshotSvgPrefix : String :=
  "\n              <svg width=\"1280\" height=\"720\" xmlns=\"http://www.w3.org/2000/svg\">\n                <rect width=\"100%\" height=\"100%\" fill=\"#f8f9fa\"/>\n                <text x=\"50%\" y=\"30%\" font-family=\"Arial\" font-size=\"36\" fill=\"#6b7280\" text-anchor=\"middle\">\n                  🔄 Initializing Browser...\n                </text>\n                <text x=\"50%\" y=\"50%\" font-family=\"Arial\" font-size=\"24\" fill=\"#9ca3af\" text-anchor=\"middle\">\n                  "

/-- Text of the placeholder SVG after the interpolated current URL. -/
def screenshotSvgSuffix : String :=
  "\n                </text>\n                <text x=\"50%\" y=\"70%\" font-family=\"Arial\" font-size=\"18\" fill=\"#d1d5db\" text-anchor=\"middle\">\n                  Real browser content loading...\n                </text>\n              </svg>\n            "

/-- The placeholder SVG with the session's current URL embedded as text. -/
def screenshotSvg (url : String) : String :=
  screenshotSvgPrefix ++ url ++ screenshotSvgSuffix

/-- The `GET /screenshot` handler: when `this.page` is set, the service
initialized and the tier not mock, it captures and sends a PNG (a capture
failure there falls to the outer catch, a 500).  Otherwise it re-runs
`initializeBrowser` and re-tests the same guard; if it now passes it
captures (a failure there is caught by the `initError` catch and yields
the placeholder), and if it still fails it throws into the same catch —
the SVG placeholder embedding `currentUrl`. -/
def screenshotRoute (libs : Libs) (pwRes ppRes : LaunchOutcome)
    (capOk : Bool) (svc : BrowserService) :
    ScreenshotResp × BrowserService :=
  if svc.hasPage && svc.isInitialized && !(svc.browserType == .mock) then
    if capOk then (.png, svc) else (.httpError 500, svc)
  else
    let svc2 := initBrowser libs pwRes ppRes svc
    if svc2.hasPage && svc2.isInitialized && !(svc2.browserType == .mock) then
      if capOk then (.png, svc2)
      else (.svg (screenshotSvg svc2.currentUrl), svc2)
    else (.svg (screenshotSvg svc2.currentUrl), svc2)

/-- The `BrowserService` state as its constructor builds it (before
`start()` runs `initializeBrowser`). -/
def freshService : BrowserService :=
  { browserType := .mock, currentUrl := "https://www.google.com",
    isInitialized := false, hasBrowser := false, hasPage := false,
    streamingClients := [], streamingInterval := none,
    runningLoops := [], ioSockets := [] }

/-- Library availability refuting C8: playwright and axios resolve,
puppeteer does not. -/
def c8CexLibs : Libs :=
  { hasPlaywright := true, hasPuppeteer := false, hasAxios := true }

/-- Counterexample to C8 as stated: starting from the fresh service,
a playwright launch that fails only at the initial `goto` (after
`this.page` was assigned) falls through to the axios tier, so the service
ends in the httpFallback tier — no real driver completed initialization —
yet with a live stale page; the screenshot guard then passes and a
successful capture answers a real PNG, not the placeholder. -/
theorem screenshot_stale_page_counterexample :
    (initBrowser c8CexLibs .failLate .failLaunch freshService).browserType =
      .http ∧
    (initBrowser c8CexLibs .failLate .failLaunch freshService).hasPage = true ∧
    (screenshotRoute c8CexLibs .failLate .failLaunch true freshService).1 =
      .png := by
  decide

theorem attemptDriver_no_page (present : Bool) (res : LaunchOutcome)
    (tier : BrowserType) (svc : BrowserService) (h1 : svc.hasPage = false)
    (h2 : present = true → res = .failLaunch ∨ res = .failNewPage) :
    (attemptDriver present res tier svc).1.hasPage = false ∧
    (attemptDriver present res tier svc).1.currentUrl = svc.currentUrl ∧
    (attemptDriver present res tier svc).2 = false := by
  by_cases hp : present
  · rcases h2 hp with h | h <;> subst h <;> simp [attemptDriver, hp, h1]
  · simp [attemptDriver, hp, h1]

/-- C8 (amended): when the service has no live page handle and every
real-driver launch attempt either cannot run (module absent) or fails
before `this.page` is assigned — which covers the module-less http and
mock tiers and total driver failure whose re-initialization fails without
leaving a page behind — `GET /screenshot` answers with the generated SVG
placeholder, not an error, and the placeholder's text embeds the
session's current URL.  (A launch failing *after* the page is assigned
instead leaves a stale live page and yields a real capture — see
`screenshot_stale_page_counterexample`.) -/
theorem screenshot_placeholder_when_no_page (libs : Libs)
    (pwRes ppRes : LaunchOutcome) (capOk : Bool) (svc : BrowserService)
    (h1 : svc.hasPage = false)
    (h2 : libs.hasPlaywright = true → pwRes = .failLaunch ∨ pwRes = .failNewPage)
    (h3 : libs.hasPuppeteer = true → ppRes = .failLaunch ∨ ppRes = .failNewPage) :
    (screenshotRoute libs pwRes ppRes capOk svc).1 =
      .svg (screenshotSvg svc.currentUrl) ∧
    screenshotSvg svc.currentUrl =
      screenshotSvgPrefix ++ svc.currentUrl ++ screenshotSvgSuffix := by
  refine ⟨?_, rfl⟩
  have hstale : (closeStale svc).hasPage = false ∧
      (closeStale svc).currentUrl = svc.currentUrl := by
    unfold closeStale
    by_cases hb : svc.hasBrowser <;> simp [hb, h1]
  have ha1 := attemptDriver_no_page libs.hasPlaywright pwRes .playwright
    (closeStale svc) hstale.1 h2
  have ha2 := attemptDriver_no_page libs.hasPuppeteer ppRes .puppeteer
    (attemptDriver libs.hasPlaywright pwRes .playwright (closeStale svc)).1
    ha1.1 h3
  have hinit : (initBrowser libs pwRes ppRes svc).hasPage = false ∧
      (initBrowser libs pwRes ppRes svc).currentUrl = svc.currentUrl := by
    unfold initBrowser
    rw [h1]
    simp only [Bool.and_false, Bool.false_eq_true, if_false]
    rw [ha1.2.2, ha2.2.2]
    simp only [Bool.false_eq_true, if_false]
    unfold httpOrMock
    by_cases hx : libs.hasAxios <;>
      simp [hx, ha2.1, ha2.2.1, ha1.2.1, hstale.2]
  unfold screenshotRoute
  rw [h1]
  simp only [Bool.false_and, Bool.false_eq_true, if_false]
  rw [hinit.1, hinit.2]
  simp

/-- Concrete driverless service for the C8 witness: mock tier, no page. -/
def c8Service : BrowserService :=
  { browserType := .mock, currentUrl := "https://example.com",
    isInitialized := false, hasBrowser := false, hasPage := false,
    streamingClients := [], streamingInterval := none,
    runningLoops := [], ioSockets := [] }

/-- Library availability for the C8 witness: nothing resolved. -/
def c8Libs : Libs :=
  { hasPlaywright := false, hasPuppeteer := false, hasAxios := false }

/-- Witness for the amended C8: the driverless `c8Service` answers the
screenshot request with the placeholder embedding `https://example.com`. -/
theorem screenshot_placeholder_when_no_page_witness :
    (screenshotRoute c8Libs .failLaunch .failLaunch true c8Service).1 =
      .svg (screenshotSvg "https://example.com") ∧
    screenshotSvg "https://example.com" =
      screenshotSvgPrefix ++ "https://example.com" ++ screenshotSvgSuffix :=
  screenshot_placeholder_when_no_page c8Libs .failLaunch .failLaunch true
    c8Service rfl (fun _ => Or.inl rfl) (fun _ => Or.inl rfl)

end BrowserConcept
